import Mathlib

/-!
Shallow embedding of the slynx auto-poster scripts
(src/.github/workflows/scripts/post_to_x.js, a file holding several
near-duplicate script variants) together with proofs about the due-post
selection algorithm, the OAuth 1.0a signer, the dispatcher and the
row-store update logic.

Conventions of the embedding:
  - JavaScript strings are Lean `String`s; numeric values flowing through
    `Number(...)` are `Option Int` with `none` standing for `NaN`
    (the ids appearing in the sheet are integral).
  - `Date` values are epoch milliseconds (`Int`); `new Date(iso)` is
    modelled by `jsDateParseMs`, a parser for the exact
    `YYYY-MM-DDTHH:MM(:SS)Z` shapes the scripts build, returning `none`
    for anything an engine would turn into an Invalid Date.
  - `Array.prototype.sort` (stable since ES2019) is modelled by the
    stable `List.insertionSort` applied to the relation
    `cmp a b ≤ 0` derived from the JS comparator; for consistent
    comparators this coincides with the engine result.
  - Network effects are passed in explicitly: a run takes the HTTP
    response it would have observed and returns the list of posting
    calls it makes and the list of store updates it writes.
-/

/-- Comparator-based stable sort: the model of JS `array.sort(cmp)`. -/
def sortByCmp {α : Type} (cmp : α → α → Int) (l : List α) : List α :=
  l.insertionSort (fun a b => cmp a b ≤ 0)

/-- The sorted list is a permutation of the input. -/
theorem sortByCmp_perm {α : Type} (cmp : α → α → Int) (l : List α) :
    (sortByCmp cmp l).Perm l :=
  List.perm_insertionSort _ l

/-- Inserting an element related to the head keeps a chain intact. -/
theorem chain_orderedInsert_of_rel {α : Type} (R : α → α → Prop) [DecidableRel R]
    (htot : ∀ a b : α, R a b ∨ R b a) (x b : α) :
    ∀ t : List α, List.Chain R b t → R b x →
      List.Chain R b (List.orderedInsert R x t)
  | [], _, hbx => by
    simpa [List.orderedInsert] using List.Chain.cons hbx List.Chain.nil
  | c :: t, hch, hbx => by
    rcases hch with _ | ⟨hbc, hct⟩
    by_cases hxc : R x c
    · simpa [List.orderedInsert, hxc] using
        List.Chain.cons hbx (List.Chain.cons hxc hct)
    · have hcx : R c x := (htot x c).resolve_left hxc
      have hrec := chain_orderedInsert_of_rel R htot x c t hct hcx
      simpa [List.orderedInsert, hxc] using List.Chain.cons hbc hrec

/-- Ordered insertion preserves adjacent-sortedness, assuming totality. -/
theorem chain_orderedInsert {α : Type} (R : α → α → Prop) [DecidableRel R]
    (htot : ∀ a b : α, R a b ∨ R b a) (x : α) :
    ∀ l : List α, l.Chain' R → (List.orderedInsert R x l).Chain' R
  | [], _ => by simp [List.orderedInsert, List.chain'_singleton]
  | b :: t, h => by
    have hbt : List.Chain R b t := h
    by_cases hxb : R x b
    · simpa [List.orderedInsert, hxb, List.Chain'] using
        List.Chain.cons hxb hbt
    · have hbx : R b x := (htot x b).resolve_left hxb
      simpa [List.orderedInsert, hxb, List.Chain'] using
        chain_orderedInsert_of_rel R htot x b t hbt hbx

/-- Insertion sort output is adjacent-sorted for any total relation,
even a non-transitive one (as arises from the NaN-absorbing JS
comparators modelled below). -/
theorem chain_insertionSort {α : Type} (R : α → α → Prop) [DecidableRel R]
    (htot : ∀ a b : α, R a b ∨ R b a) :
    ∀ l : List α, (l.insertionSort R).Chain' R
  | [] => by simp [List.insertionSort, List.Chain']
  | b :: t => by
    simpa [List.insertionSort] using
      chain_orderedInsert R htot b _ (chain_insertionSort R htot t)

/-- From a chain in `R`, walk transitively in a coarser relation `S`
whose transitivity is only known on members of the chain. -/
theorem chain_rel_all {α : Type} {R S : α → α → Prop} :
    ∀ (l : List α) (a : α), List.Chain R a l →
      (∀ x ∈ a :: l, ∀ y ∈ a :: l, ∀ z ∈ a :: l, S x y → S y z → S x z) →
      (∀ x ∈ a :: l, ∀ y ∈ a :: l, R x y → S x y) →
      ∀ x ∈ l, S a x
  | [], _, _, _, _, x, hx => by cases hx
  | b :: t, a, hch, htrans, hRS, x, hx => by
    rcases hch with _ | ⟨hab, hbt⟩
    have hSab : S a b := hRS a (by simp) b (by simp) hab
    rcases List.mem_cons.mp hx with rfl | hxt
    · exact hSab
    · have hSbx : S b x :=
        chain_rel_all t b hbt
          (fun x hx y hy z hz => htrans x (by simp [List.mem_cons.mp hx])
            y (by simp [List.mem_cons.mp hy]) z (by simp [List.mem_cons.mp hz]))
          (fun x hx y hy => hRS x (by simp [List.mem_cons.mp hx])
            y (by simp [List.mem_cons.mp hy]))
          x hxt
      exact htrans a (by simp) b (by simp) x (by simp [hxt]) hSab hSbx

/-! ### JavaScript primitive models

Lean's position-based `String` functions (`trim`, `toLower`, `splitOn`,
...) are opaque to the kernel, so the embedding re-implements each of
them structurally over the character list; they model the corresponding
JS string methods on the ASCII data the scripts handle. -/

/-- Strip leading and trailing whitespace from a character list. -/
def trimL (l : List Char) : List Char :=
  ((l.dropWhile Char.isWhitespace).reverse.dropWhile Char.isWhitespace).reverse

/-- Model of `String(x).trim()`. -/
def jsTrim (s : String) : String := String.mk (trimL s.data)

/-- Model of `toLowerCase()` on the ASCII header and status values. -/
def lowerStr (s : String) : String := String.mk (s.data.map Char.toLower)

/-- Model of `toUpperCase()` on the ASCII method names. -/
def upperStr (s : String) : String := String.mk (s.data.map Char.toUpper)

/-- Split a character list at every occurrence of a separator character,
the model of `str.split(sep)` for the one-character separators the
scripts use. -/
def splitOnCharL (sep : Char) : List Char → List (List Char)
  | [] => [[]]
  | c :: rest =>
    match splitOnCharL sep rest with
    | [] => [[]]
    | seg :: segs =>
      if c = sep then [] :: seg :: segs else (c :: seg) :: segs

/-- String wrapper of the splitter. -/
def splitOnChar (sep : Char) (s : String) : List String :=
  (splitOnCharL sep s.data).map String.mk

/-- Value of a decimal digit character. -/
def digitVal (c : Char) : Nat := c.toNat - 48

/-- Decimal value of a digit run. -/
def digitsToNat (l : List Char) : Nat :=
  l.foldl (fun acc c => acc * 10 + digitVal c) 0

/-- Model of JS `Number(str)` restricted to the integral ids stored in the
sheet: an all-whitespace string yields 0, an optionally signed run of
digits yields its value, anything else yields `none` (NaN). -/
def jsNumber (s : String) : Option Int :=
  let t := trimL s.data
  if t = [] then some 0
  else if t.all Char.isDigit then some (digitsToNat t)
  else if t.head? = some (Char.ofNat 45) ∧ t.tail ≠ [] ∧
          t.tail.all Char.isDigit then
    some (-(Int.ofNat (digitsToNat t.tail)))
  else none

/-- Two-digit decimal field. -/
def num2 (a b : Char) : Option Nat :=
  if a.isDigit ∧ b.isDigit then some (digitVal a * 10 + digitVal b) else none

/-- Four-digit decimal field. -/
def num4 (a b c d : Char) : Option Nat :=
  if a.isDigit ∧ b.isDigit ∧ c.isDigit ∧ d.isDigit then
    some (digitVal a * 1000 + digitVal b * 100 + digitVal c * 10 + digitVal d)
  else none

/-- Gregorian leap-year test. -/
def isLeap (y : Nat) : Bool := (y % 4 = 0 ∧ y % 100 ≠ 0) ∨ y % 400 = 0

/-- Number of days of a month. -/
def daysInMonth (y m : Nat) : Nat :=
  if m = 2 then (if isLeap y then 29 else 28)
  else if m = 4 ∨ m = 6 ∨ m = 9 ∨ m = 11 then 30
  else 31

/-- Days since 1970-01-01 of a civil date (years 0-9999), computed with
the standard era decomposition shifted by 400 years to stay in `Nat`. -/
def daysFromCivil (y m d : Nat) : Int :=
  let y1 : Nat := if m ≤ 2 then y + 399 else y + 400
  let m1 : Nat := if m ≤ 2 then m + 9 else m - 3
  let era := y1 / 400
  let yoe := y1 % 400
  let doy := (153 * m1 + 2) / 5 + d - 1
  let doe := yoe * 365 + yoe / 4 - yoe / 100 + doy
  (Int.ofNat (era * 146097 + doe)) - 865565

/-- Epoch milliseconds of a UTC civil date-time, validating every field
the way the ES Date Time String Format does (hour 24 allowed only as
24:00:00). -/
def utcMs (y mo da h mi s : Nat) : Option Int :=
  if 1 ≤ mo ∧ mo ≤ 12 ∧ 1 ≤ da ∧ da ≤ daysInMonth y mo ∧
     ((h ≤ 23 ∧ mi ≤ 59 ∧ s ≤ 59) ∨ (h = 24 ∧ mi = 0 ∧ s = 0)) then
    some ((daysFromCivil y mo da * 86400 +
      Int.ofNat (h * 3600 + mi * 60 + s)) * 1000)
  else none

/-- Combine the parsed fields of an ISO string, or NaN. -/
def mkIso (y1 y2 y3 y4 mo1 mo2 da1 da2 h1 h2 mi1 mi2 s1 s2 : Char) : Option Int :=
  match num4 y1 y2 y3 y4, num2 mo1 mo2, num2 da1 da2,
        num2 h1 h2, num2 mi1 mi2, num2 s1 s2 with
  | some y, some mo, some da, some h, some mi, some s => utcMs y mo da h mi s
  | _, _, _, _, _, _ => none

/-- Model of `new Date(iso).getTime()` for the strings the scripts build:
`YYYY-MM-DDTHH:MMZ` and `YYYY-MM-DDTHH:MM:SSZ` parse (with field
validation); every other shape is an Invalid Date, i.e. `none`. -/
def jsDateParseMs (s : String) : Option Int :=
  match s.data with
  | [y1, y2, y3, y4, d1, mo1, mo2, d2, da1, da2, t, h1, h2, c1, mi1, mi2, z] =>
    if d1 = '-' ∧ d2 = '-' ∧ t = 'T' ∧ c1 = ':' ∧ z = 'Z' then
      mkIso y1 y2 y3 y4 mo1 mo2 da1 da2 h1 h2 mi1 mi2 '0' '0'
    else none
  | [y1, y2, y3, y4, d1, mo1, mo2, d2, da1, da2, t, h1, h2, c1, mi1, mi2, c2,
     s1, s2, z] =>
    if d1 = '-' ∧ d2 = '-' ∧ t = 'T' ∧ c1 = ':' ∧ c2 = ':' ∧ z = 'Z' then
      mkIso y1 y2 y3 y4 mo1 mo2 da1 da2 h1 h2 mi1 mi2 s1 s2
    else none
  | _ => none

/-! ### Percent encoding (percentEncode, lines 422-425 and 907-910) -/

/-- RFC 3986 unreserved characters: letters, digits, hyphen, underscore,
period, tilde. -/
def isUnreservedRFC (c : Char) : Bool :=
  c.isAlpha ∨ c.isDigit ∨ c = '-' ∨ c = '_' ∨ c = '.' ∨ c = '~'

/-- Characters the ES `encodeURIComponent` leaves unescaped
(uriAlpha, DecimalDigit and uriMark). -/
def isUriUnescaped (c : Char) : Bool :=
  c.isAlpha ∨ c.isDigit ∨ c = '-' ∨ c = '_' ∨ c = '.' ∨ c = '~' ∨
  c = '!' ∨ c = '*' ∨ c = Char.ofNat 39 ∨ c = '(' ∨ c = ')'

/-- Uppercase hexadecimal digit. -/
def hexDigitU (n : Nat) : Char :=
  if n < 10 then Char.ofNat (48 + n) else Char.ofNat (55 + n)

/-- Percent escape of one byte, uppercase hex. -/
def byteEscape (b : Nat) : List Char := ['%', hexDigitU (b / 16), hexDigitU (b % 16)]

/-- UTF-8 bytes of a character. -/
def utf8Bytes (c : Char) : List Nat :=
  let n := c.toNat
  if n < 128 then [n]
  else if n < 2048 then [192 + n / 64, 128 + n % 64]
  else if n < 65536 then [224 + n / 4096, 128 + n / 64 % 64, 128 + n % 64]
  else [240 + n / 262144, 128 + n / 4096 % 64, 128 + n / 64 % 64, 128 + n % 64]

/-- Full percent escape of one character (all of its UTF-8 bytes). -/
def escapeChar (c : Char) : List Char := ((utf8Bytes c).map byteEscape).flatten

/-- Model of `encodeURIComponent`, on character lists. -/
def encodeURIComponentL : List Char → List Char
  | [] => []
  | c :: cs => (if isUriUnescaped c then [c] else escapeChar c) ++ encodeURIComponentL cs

/-- The five characters targeted by the scripts own
`.replace(/[!...]/g, ...)` pass: bang, apostrophe, parens, asterisk. -/
def isBangChar (c : Char) : Bool :=
  c = '!' ∨ c = Char.ofNat 39 ∨ c = '(' ∨ c = ')' ∨ c = '*'

/-- Model of the global regex replace turning each targeted character
into its uppercase percent escape. -/
def fixBangL : List Char → List Char
  | [] => []
  | c :: cs => (if isBangChar c then byteEscape c.toNat else [c]) ++ fixBangL cs

/-- The percentEncode of the scripts: encodeURIComponent followed by the
regex pass over the five extra characters. -/
def percentEncode (s : String) : String :=
  String.mk (fixBangL (encodeURIComponentL s.data))

/-- Spec-side encoder, transliterated from the specification sentence:
keep exactly the RFC 3986 unreserved characters, replace every other
character by the uppercase percent escapes of its bytes. -/
def rfc3986EncodeL : List Char → List Char
  | [] => []
  | c :: cs => (if isUnreservedRFC c then [c] else escapeChar c) ++ rfc3986EncodeL cs

/-- String wrapper of the spec-side encoder. -/
def rfc3986Encode (s : String) : String := String.mk (rfc3986EncodeL s.data)

theorem char_toNat_lt (c : Char) : c.toNat < 1114112 := by
  rcases c.valid with h | ⟨_, h⟩
  · exact lt_trans h (by norm_num)
  · exact h

theorem utf8Bytes_lt (c : Char) : ∀ b ∈ utf8Bytes c, b < 256 := by
  intro b hb
  have hc := char_toNat_lt c
  unfold utf8Bytes at hb
  by_cases h1 : c.toNat < 128
  · simp [h1] at hb; omega
  · by_cases h2 : c.toNat < 2048
    · have : c.toNat / 64 < 32 := Nat.div_lt_of_lt_mul (by omega)
      have : c.toNat % 64 < 64 := Nat.mod_lt _ (by norm_num)
      simp [h1, h2] at hb
      rcases hb with rfl | rfl <;> omega
    · by_cases h3 : c.toNat < 65536
      · have : c.toNat / 4096 < 16 := Nat.div_lt_of_lt_mul (by omega)
        have : c.toNat / 64 % 64 < 64 := Nat.mod_lt _ (by norm_num)
        have : c.toNat % 64 < 64 := Nat.mod_lt _ (by norm_num)
        simp [h1, h2, h3] at hb
        rcases hb with rfl | rfl | rfl <;> omega
      · have : c.toNat / 262144 < 5 := Nat.div_lt_of_lt_mul (by omega)
        have : c.toNat / 4096 % 64 < 64 := Nat.mod_lt _ (by norm_num)
        have : c.toNat / 64 % 64 < 64 := Nat.mod_lt _ (by norm_num)
        have : c.toNat % 64 < 64 := Nat.mod_lt _ (by norm_num)
        simp [h1, h2, h3] at hb
        rcases hb with rfl | rfl | rfl | rfl <;> omega

theorem fixBangL_append (a b : List Char) :
    fixBangL (a ++ b) = fixBangL a ++ fixBangL b := by
  induction a with
  | nil => rfl
  | cons c cs ih => simp [fixBangL, ih]

theorem isBangChar_hexDigitU (n : Nat) (h : n < 16) :
    isBangChar (hexDigitU n) = false := by
  interval_cases n <;> decide

theorem fixBangL_byteEscape (b : Nat) (h : b < 256) :
    fixBangL (byteEscape b) = byteEscape b := by
  have h1 : b / 16 < 16 := Nat.div_lt_of_lt_mul (by omega)
  have h2 : b % 16 < 16 := Nat.mod_lt _ (by norm_num)
  have hp : isBangChar '%' = false := by decide
  simp [byteEscape, fixBangL, hp, isBangChar_hexDigitU _ h1,
    isBangChar_hexDigitU _ h2]

theorem fixBangL_flatten_escapes : ∀ bs : List Nat, (∀ x ∈ bs, x < 256) →
    fixBangL ((bs.map byteEscape).flatten) = (bs.map byteEscape).flatten
  | [], _ => rfl
  | b :: bs, h => by
    simp only [List.map_cons, List.flatten_cons, fixBangL_append]
    rw [fixBangL_byteEscape b (h b (by simp)),
      fixBangL_flatten_escapes bs (fun x hx => h x (by simp [hx]))]

theorem fixBangL_escapeChar (c : Char) :
    fixBangL (escapeChar c) = escapeChar c :=
  fixBangL_flatten_escapes _ (utf8Bytes_lt c)

theorem not_bang_of_unreserved (c : Char) (h : isUnreservedRFC c = true) :
    isBangChar c = false := by
  by_contra hb
  have hb2 : isBangChar c = true := by
    cases hx : isBangChar c
    · exact absurd hx hb
    · rfl
  simp only [isBangChar, decide_eq_true_eq] at hb2
  rcases hb2 with rfl | rfl | rfl | rfl | rfl <;> revert h <;> decide

theorem uriUnescaped_cases (c : Char) (h : isUriUnescaped c = true) :
    isUnreservedRFC c = true ∨ isBangChar c = true := by
  simp only [isUriUnescaped, decide_eq_true_eq] at h
  simp only [isUnreservedRFC, isBangChar, decide_eq_true_eq]
  tauto

theorem unreserved_unescaped (c : Char) (h : isUnreservedRFC c = true) :
    isUriUnescaped c = true := by
  simp only [isUnreservedRFC, decide_eq_true_eq] at h
  simp only [isUriUnescaped, decide_eq_true_eq]
  tauto

/-- Per character, the regex pass over an encodeURIComponent output
yields exactly the strict RFC 3986 encoding. -/
theorem fix_enc_char (c : Char) :
    fixBangL (if isUriUnescaped c then [c] else escapeChar c) =
      (if isUnreservedRFC c then [c] else escapeChar c) := by
  by_cases hu : isUnreservedRFC c = true
  · have hj := unreserved_unescaped c hu
    have hb := not_bang_of_unreserved c hu
    simp [hu, hj, fixBangL, hb]
  · by_cases hj : isUriUnescaped c = true
    · have hb : isBangChar c = true :=
        (uriUnescaped_cases c hj).resolve_left hu
      simp only [isBangChar, decide_eq_true_eq] at hb
      rcases hb with rfl | rfl | rfl | rfl | rfl <;> decide
    · simp only [hu, hj, if_false, Bool.false_eq_true, fixBangL_escapeChar]

/-- The composite percentEncode equals the strict RFC 3986 encoder on
every string. -/
theorem percentEncode_eq_rfc3986 (s : String) :
    percentEncode s = rfc3986Encode s := by
  unfold percentEncode rfc3986Encode
  congr 1
  induction s.data with
  | nil => rfl
  | cons c cs ih =>
    show fixBangL ((if isUriUnescaped c then [c] else escapeChar c) ++
      encodeURIComponentL cs) = _
    rw [fixBangL_append, fix_enc_char, ih]
    rfl

/-! ### OAuth 1.0a signature base string (lines 427-470 and 912-953) -/

/-- Lexicographic code-point comparison of character lists, the model of
the default JS string comparison used by `Object.keys(...).sort()`. -/
def listCharCmp : List Char → List Char → Int
  | [], [] => 0
  | [], _ :: _ => -1
  | _ :: _, [] => 1
  | a :: as, b :: bs =>
    if a = b then listCharCmp as bs else (a.toNat : Int) - (b.toNat : Int)

/-- String comparator for sorting parameter keys. -/
def strCmp (a b : String) : Int := listCharCmp a.data b.data

/-- Base URL, the part before the first question mark or hash: the model
of `u.origin + u.pathname` for the already-normalized URLs the scripts
pass. -/
def urlBase (url : String) : String :=
  String.mk (url.data.takeWhile (fun c => ¬(c = '?' ∨ c = '#')))

/-- Search part of a URL: what follows the first question mark of the
pre-fragment portion. -/
def urlSearch (url : String) : String :=
  String.mk
    (((url.data.takeWhile (fun c => c ≠ '#')).dropWhile (fun c => c ≠ '?')).drop 1)

/-- Hexadecimal digit test. -/
def isHexDig (c : Char) : Bool :=
  c.isDigit ∨ (65 ≤ c.toNat ∧ c.toNat ≤ 70) ∨ (97 ≤ c.toNat ∧ c.toNat ≤ 102)

/-- Hexadecimal digit value. -/
def hexVal (c : Char) : Nat :=
  if c.isDigit then digitVal c
  else if 97 ≤ c.toNat then c.toNat - 87
  else c.toNat - 55

/-- Urlencoded token decoding (plus to space, single-byte percent
escapes), the model of what `URLSearchParams` applies to each token. -/
def formDecodeL : List Char → List Char
  | [] => []
  | '+' :: rest => ' ' :: formDecodeL rest
  | '%' :: a :: b :: rest =>
    if isHexDig a ∧ isHexDig b then
      Char.ofNat (hexVal a * 16 + hexVal b) :: formDecodeL rest
    else '%' :: a :: b :: formDecodeL rest
  | c :: rest => c :: formDecodeL rest

/-- String wrapper of the token decoder. -/
def formDecode (s : String) : String := String.mk (formDecodeL s.data)

/-- Parse an urlencoded query string into key-value pairs, the model of
iterating `u.searchParams`. -/
def parseQuery (qs : String) : List (String × String) :=
  ((splitOnChar '&' qs).filter (fun seg => seg ≠ "")).map (fun seg =>
    let ps := splitOnChar '=' seg
    (formDecode (ps.headD ""), formDecode (String.intercalate "=" ps.tail)))

/-- Query parameters of a URL. -/
def urlQueryParams (url : String) : List (String × String) :=
  parseQuery (urlSearch url)

/-- Insert one entry into a JS-object model: a later entry overwrites the
value stored under an existing key, a fresh key is appended. -/
def objInsert (m : List (String × String)) (kv : String × String) :
    List (String × String) :=
  if m.any (fun p => p.1 = kv.1) then
    m.map (fun p => if p.1 = kv.1 then (p.1, kv.2) else p)
  else m ++ [kv]

/-- Build a JS object from a list of entries (spread semantics). -/
def objOf (l : List (String × String)) : List (String × String) :=
  l.foldl objInsert []

/-- Sorted, ampersand-joined, equals-joined percent-encoded parameter
string: the model of
`Object.keys(p).sort().map(k => pe(k)+"="+pe(p[k])).join("&")`. -/
def paramPairsJoin (params : List (String × String)) : String :=
  String.intercalate "&"
    ((sortByCmp (fun a b => strCmp a.1 b.1) params).map
      (fun p => percentEncode p.1 ++ "=" ++ percentEncode p.2))

/-- Signature base string of `buildOAuth1Header` (lines 439-457): query
parameters of the URL united with the signing parameters, base URL
stripped of query and fragment. -/
def sigBaseStringV3 (method url : String)
    (oauthParams : List (String × String)) : String :=
  let allParams := objOf (urlQueryParams url ++ oauthParams)
  String.intercalate "&"
    [upperStr method, percentEncode (urlBase url),
     percentEncode (paramPairsJoin allParams)]

/-- Signature base string of `oauth1Header` (lines 931-938): the full URL
is percent-encoded as given, and only the signing parameters enter the
parameter string. -/
def sigBaseStringV5 (method url : String)
    (oauthParams : List (String × String)) : String :=
  String.intercalate "&"
    [upperStr method, percentEncode url,
     percentEncode (paramPairsJoin (objOf oauthParams))]

/-- Spec-side signature base string, transliterated from the
specification sentence: concatenate with ampersands the upper-cased
method, the percent-encoded base URL with query and fragment removed,
and the percent-encoding of the alphabetically sorted, ampersand-joined,
equals-joined union of signing parameters and URL query parameters. The
JSON body appears nowhere in this construction. -/
def specSigBaseString (method url : String)
    (signingParams : List (String × String)) : String :=
  upperStr method ++ "&" ++ percentEncode (urlBase url) ++ "&" ++
    percentEncode (paramPairsJoin (objOf (urlQueryParams url ++ signingParams)))

theorem intercalate_amp_three (a b c : String) :
    String.intercalate "&" [a, b, c] = a ++ "&" ++ b ++ "&" ++ c := by
  simp [String.intercalate, String.intercalate.go, String.append_assoc]

/-! ### Row model and schedule parsing -/

/-- One scheduled-post row: the cells the scripts read, plus the 1-based
sheet row number that the keyed variants store as `__rowIndex`. -/
structure Row where
  status : String
  publishDate : String
  timeUtc : String
  postText : String
  idCell : String
  rowIndex : Nat
deriving Repr, DecidableEq

/-- parseUtcDateTime of the first variant (lines 21-30): trim the time,
treat a five-character value as HH:MM by appending seconds, then parse
the combined ISO string; an invalid combination yields null. -/
def parseUtcDateTimeV1 (publishDate timeUtc : String) : Option Int :=
  let t := jsTrim timeUtc
  let time := if t.length = 5 then t ++ ":00" else t
  jsDateParseMs (publishDate ++ "T" ++ time ++ "Z")

/-- parseUtcDateTime of the fourth variant (lines 666-677): append
seconds unconditionally and throw on an invalid result. -/
def parseUtcDateTimeV4 (publishDate timeUtc : String) : Except String Int :=
  let dateStr := jsTrim publishDate
  let timeStr := jsTrim timeUtc
  let iso := dateStr ++ "T" ++ timeStr ++ ":00Z"
  match jsDateParseMs iso with
  | some ms => .ok ms
  | none =>
    .error ("Invalid date/time from sheet: Publish Date=\"" ++ dateStr ++
      "\", Time (UTC)=\"" ++ timeStr ++ "\" -> \"" ++ iso ++ "\"")

/-- Model of `padStart(2, "0")`. -/
def padStart2 (s : String) : String :=
  if s.length ≥ 2 then s else if s.length = 1 then "0" ++ s else "00"

/-- toIsoUtcFromColumns (lines 373-391): split the time on colons, pad
the fields, default the seconds, and build the ISO text without
validating it. -/
def toIsoUtcFromColumns (publishDate timeUtc : String) : Option String :=
  let d := jsTrim publishDate
  let t := jsTrim timeUtc
  if d = "" ∨ t = "" then none
  else
    let parts := (splitOnChar ':' t).map jsTrim
    if parts.length < 2 then none
    else
      let hh := padStart2 (parts.headD "")
      let mm := padStart2 ((parts.drop 1).headD "")
      let ss := padStart2 ((parts.drop 2).headD "00")
      some (d ++ "T" ++ hh ++ ":" ++ mm ++ ":" ++ ss ++ "Z")

/-- parseUtcDueDate of the fifth variant (lines 888-905): same
normalization as the first variant but with both fields trimmed and
required non-empty. -/
def parseUtcDueDateV5 (r : Row) : Option Int :=
  let d := jsTrim r.publishDate
  let t := jsTrim r.timeUtc
  if d = "" ∨ t = "" then none
  else
    let time := if t.length = 5 then t ++ ":00" else t
    jsDateParseMs (d ++ "T" ++ time ++ "Z")

/-- isDue of the third variant (lines 397-417), with the header-key
resolution abstracted into the row fields: empty text, a non-pending
status, an unbuildable ISO text or an invalid instant all make the row
not due (a NaN instant compares false against now). -/
def isDueV3 (r : Row) (now : Int) : Bool :=
  if jsTrim r.postText = "" then false
  else if lowerStr (jsTrim r.status) ≠ "pending" then false
  else
    match toIsoUtcFromColumns r.publishDate r.timeUtc with
    | none => false
    | some iso =>
      match jsDateParseMs iso with
      | none => false
      | some ms => ms ≤ now

/-- Due list of the third variant (lines 561-572): filter by the ISO
text and isDue, then sort by the parsed instant only (every surviving
entry parses, so the NaN-to-zero default never fires). -/
def dueV3 (rows : List Row) (now : Int) : List (Row × String) :=
  sortByCmp
    (fun a b => (jsDateParseMs a.2).getD 0 - (jsDateParseMs b.2).getD 0)
    ((rows.map (fun r => (r, toIsoUtcFromColumns r.publishDate r.timeUtc))).filterMap
      (fun p =>
        match p.2 with
        | some iso => if isDueV3 p.1 now then some (p.1, iso) else none
        | none => none))

/-! ### Selector of the first variant (lines 84-100) -/

/-- Candidate entry of the first variant: the row, its zero-based
position, its sheet row, the parsed instant and the Number() of its id
cell. -/
structure Cand where
  row : Row
  origIdx : Nat
  sheetRow : Nat
  dt : Int
  idNum : Option Int
deriving Repr, DecidableEq

/-- Difference of two id values as the comparator observes it: a NaN id
collapses the comparison to zero (the engine treats a NaN comparator
result as equality, leaving the stable order). -/
def idDiff : Option Int → Option Int → Int
  | some x, some y => x - y
  | _, _ => 0

/-- Comparator of line 93, `(a, b) => a.dt - b.dt || a.id - b.id`: the
instant difference when nonzero, otherwise the id difference. -/
def cmpV1 (a b : Cand) : Int :=
  if a.dt - b.dt ≠ 0 then a.dt - b.dt else idDiff a.idNum b.idNum

/-- Candidate list of lines 84-93: keep pending rows, parse their
instants, keep the due ones, sort with the instant-then-id comparator. -/
def candidatesV1 (rows : List Row) (now : Int) : List Cand :=
  sortByCmp cmpV1
    ((rows.enum.filter
        (fun p => lowerStr (jsTrim p.2.status) = "pending")).filterMap
      (fun p =>
        match parseUtcDateTimeV1 p.2.publishDate p.2.timeUtc with
        | some dt =>
          if dt ≤ now then
            some ⟨p.2, p.1, p.1 + 2, dt, jsNumber p.2.idCell⟩
          else none
        | none => none))

/-! ### Dispatch and run flows -/

/-- Outcome of the posting library call made by the first variant:
either a thrown transport or API error, or a response whose data.id may
be missing. -/
inductive ApiResult
  | err (msg : String)
  | ok (idOpt : Option String)
deriving Repr, DecidableEq

/-- Observable behaviour of one run: the texts dispatched to the posting
API, the row updates written to the store, and a surfaced error. -/
structure RunOut where
  posts : List String
  updates : List (Nat × List (String × String))
  error : Option String
deriving Repr, DecidableEq

/-- Main flow of the first variant (lines 100-134): take the head of the
candidate list; an empty trimmed text is marked Skipped without any
network call, otherwise the single tweet call is made and, on success,
the row is written Status=Posted with `tweet.data?.id || ""`. -/
def runV1 (rows : List Row) (now : Int) (api : ApiResult) (nowIso : String) :
    RunOut :=
  match (candidatesV1 rows now).head? with
  | none => ⟨[], [], none⟩
  | some item =>
    let postText := jsTrim item.row.postText
    if postText = "" then
      ⟨[], [(item.sheetRow, [("Status", "Skipped"), ("Posted At", nowIso)])],
        none⟩
    else
      match api with
      | .err e => ⟨[postText], [], some e⟩
      | .ok idOpt =>
        ⟨[postText],
          [(item.sheetRow,
            [("Status", "Posted"), ("Posted At", nowIso),
             ("Tweet ID", idOpt.getD "")])],
          none⟩

/-- Row picker of the fourth variant (lines 812-833): walk the rows in
sheet order, skip non-pending and empty-text rows, parse the schedule
(which throws on an invalid combination), and pick the first row whose
instant is due. -/
def pickV4 (now : Int) : List (Nat × Row) → Except String (Option (Nat × Row))
  | [] => .ok none
  | (i, r) :: rest =>
    if lowerStr (jsTrim r.status) ≠ "pending" then pickV4 now rest
    else if jsTrim r.postText = "" then pickV4 now rest
    else
      match parseUtcDateTimeV4 r.publishDate r.timeUtc with
      | .error e => .error e
      | .ok ms => if ms ≤ now then .ok (some (i + 2, r)) else pickV4 now rest

/-- HTTP response of the posting endpoint as the fetch-based variants
observe it: status plus the JSON fields they inspect. -/
structure HttpResp where
  status : Nat
  detail : Option String
  title : Option String
  dataId : Option String
  rawJson : String
deriving Repr, DecidableEq

/-- Dispatch failures of the fetch-based postToX implementations. -/
inductive PostErr
  | rejected (status : Nat) (msg : String)
  | noId
deriving Repr, DecidableEq

/-- JS `a || b` on an optional string: an absent or empty value falls
through. -/
def jsOrS (a : Option String) (b : String) : String :=
  match a with
  | some s => if s = "" then b else s
  | none => b

/-- postToX of the fifth variant (lines 1042-1080): a non-2xx status
throws with the status code and the provider message
(`body?.detail || body?.title || JSON.stringify(body)`); a 2xx response
without `body?.data?.id` throws the missing-id error. -/
def postToXV5 (resp : HttpResp) : Except PostErr String :=
  if 200 ≤ resp.status ∧ resp.status ≤ 299 then
    match resp.dataId with
    | some id => .ok id
    | none => .error .noId
  else
    .error (.rejected resp.status (jsOrS resp.detail (jsOrS resp.title resp.rawJson)))

/-- postToX of the fourth variant (lines 758-791): same shape, with the
whole JSON body as the rejection message. -/
def postToXV4 (resp : HttpResp) : Except PostErr String :=
  if 200 ≤ resp.status ∧ resp.status ≤ 299 then
    match resp.dataId with
    | some id => .ok id
    | none => .error .noId
  else .error (.rejected resp.status resp.rawJson)

/-- postToX of the third variant (lines 472-506): the raw body text is
read first and a non-2xx status throws with the status code and that
body. -/
def postToXV3 (status : Nat) (bodyText : String) : Except PostErr String :=
  if 200 ≤ status ∧ status ≤ 299 then .ok bodyText
  else .error (.rejected status bodyText)

/-- Error message rendering of the fifth variant. -/
def postErrMsg : PostErr → String
  | .rejected status msg => "X post failed (" ++ toString status ++ "): " ++ msg
  | .noId => "X post returned success but no tweet id."

/-! ### Selector and run of the fifth variant (lines 1083-1145) -/

/-- Comparator of line 1108: instant difference only. -/
def cmpV5 (a b : Row × Int) : Int := a.2 - b.2

/-- Pre-sort candidate list of lines 1098-1107, in backend row order:
pending rows with a parseable due instant, non-empty text, instant not
after now. -/
def candidatesV5pre (rows : List Row) (now : Int) : List (Row × Int) :=
  (rows.filter (fun r => lowerStr (jsTrim r.status) = "pending")).filterMap
    (fun r =>
      match parseUtcDueDateV5 r with
      | some due =>
        if jsTrim r.postText ≠ "" ∧ due ≤ now then some (r, due) else none
      | none => none)

/-- Candidate list of lines 1098-1108: the pre-sort list sorted by
instant only (no id tie-break). -/
def candidatesV5 (rows : List Row) (now : Int) : List (Row × Int) :=
  sortByCmp cmpV5 (candidatesV5pre rows now)

/-- Main flow of the fifth variant: choose the head candidate, post its
trimmed text, and only on a successful dispatch write Status, Tweet ID
and Posted At (UTC) back; a thrown dispatch error reaches the catch
block with no update written. -/
def runV5 (rows : List Row) (now : Int) (resp : HttpResp) (nowIso : String) :
    RunOut :=
  match (candidatesV5 rows now).head? with
  | none => ⟨[], [], none⟩
  | some chosen =>
    let text := jsTrim chosen.1.postText
    match postToXV5 resp with
    | .error e => ⟨[text], [], some (postErrMsg e)⟩
    | .ok tid =>
      ⟨[text],
        [(chosen.1.rowIndex,
          [("Status", "Posted"), ("Tweet ID", tid),
           ("Posted At (UTC)", nowIso)])],
        none⟩

/-- Main flow of the fourth variant (lines 793-855): pick the first due
row in sheet order (possibly throwing while parsing), post it once, and
on success update Status plus the optional audit columns. -/
def runV4 (rows : List Row) (now : Int) (resp : HttpResp) (nowIso : String)
    (hasTweetIdCol hasPostedAtCol : Bool) : RunOut :=
  match pickV4 now rows.enum with
  | .error e => ⟨[], [], some e⟩
  | .ok none => ⟨[], [], none⟩
  | .ok (some (rowNumber, r)) =>
    let text := jsTrim r.postText
    match postToXV4 resp with
    | .error e => ⟨[text], [], some (postErrMsg e)⟩
    | .ok tid =>
      ⟨[text],
        [(rowNumber,
          [("Status", "Posted")] ++
            (if hasTweetIdCol then [("tweet_id", tid)] else []) ++
            (if hasPostedAtCol then [("posted_at", nowIso)] else []))],
        none⟩

/-! ### Row-store update models -/

/-- Model of `Array.prototype.findIndex`: position of the first match. -/
def jsFindIndex {α : Type} (p : α → Bool) : List α → Option Nat
  | [] => none
  | a :: rest => if p a then some 0 else (jsFindIndex p rest).map (· + 1)

theorem jsFindIndex_lt_length {α : Type} {p : α → Bool} :
    ∀ {l : List α} {i : Nat}, jsFindIndex p l = some i → i < l.length := by
  intro l
  induction l with
  | nil => intro i h; cases h
  | cons a rest ih =>
    intro i h
    by_cases hp : p a
    · simp [jsFindIndex, hp] at h
      simp only [List.length_cons]
      omega
    · simp [jsFindIndex, hp] at h
      rcases h with ⟨j, hj, rfl⟩
      have := ih hj
      simpa [List.length_cons] using Nat.succ_lt_succ this

theorem jsFindIndex_get {α : Type} [Inhabited α] {p : α → Bool} :
    ∀ {l : List α} {i : Nat}, jsFindIndex p l = some i →
      p (l.getD i default) = true := by
  intro l
  induction l with
  | nil => intro i h; cases h
  | cons a rest ih =>
    intro i h
    by_cases hp : p a
    · simp [jsFindIndex, hp] at h
      subst h
      simpa [List.getD] using hp
    · simp [jsFindIndex, hp] at h
      rcases h with ⟨j, hj, rfl⟩
      simpa [List.getD] using ih hj

/-- updateRow of the first variant (lines 136-161): read the current row
back, extend it to the header width with empty cells, overwrite exactly
the cells whose header matches an update key case-insensitively (a key
with no matching header is skipped silently), and write the whole row
back. -/
def updateCellsV1 (headers : List String) (current : List String)
    (updates : List (String × String)) : List String :=
  let cells := (List.range headers.length).map (fun i => current.getD i "")
  updates.foldl
    (fun cs kv =>
      match jsFindIndex (fun h => lowerStr h = lowerStr kv.1) headers with
      | some idx => cs.set idx kv.2
      | none => cs)
    cells

/-- Column letter of updateRowByHeader (line 1025): the single character
at the letter offset of the column index. -/
def colLetter (idx : Nat) : Char := Char.ofNat (65 + idx)

/-- updateRowByHeader of the fifth variant (lines 1016-1039): for each
update entry, look up the exact (case-sensitive) header position with
indexOf, skip a missing column silently, and emit one single-cell write
range at that column letter. -/
def updateDataV5 (headers : List String) (rowIndex : Nat)
    (updates : List (String × String)) : List (Char × Nat × String) :=
  updates.filterMap (fun kv =>
    match jsFindIndex (fun h => h = kv.1) headers with
    | some colIdx => some (colLetter colIdx, rowIndex, kv.2)
    | none => none)

/-- headerIndex of the fourth variant (lines 711-715): case-insensitive
lookup that throws when the column is missing. -/
def headerIndexV4 (headers : List String) (name : String) : Except String Nat :=
  match jsFindIndex (fun h => lowerStr h = lowerStr name) headers with
  | some idx => .ok idx
  | none => .error ("Missing required column in sheet header: " ++ name)

/-- updateRow of the fourth variant (lines 717-746): take a copy of the
refetched row and apply each update through headerIndex, which throws on
a missing column. -/
def updateRowV4 (headers : List String) (row : List String)
    (updates : List (String × String)) : Except String (List String) :=
  updates.foldlM
    (fun r kv =>
      match headerIndexV4 headers kv.1 with
      | .ok idx => .ok (r.set idx kv.2)
      | .error e => .error e)
    row

/-- Fetch window of the scripts: every read range is A1:Z10000 or A:Z,
so at most the first 26 cells of a backing row are ever returned. -/
def fetchWindow (rawRow : List String) : List String := rawRow.take 26

/-- End column clamp of the fourth variant (line 737):
`String.fromCharCode("A".charCodeAt(0) + Math.min(headers.length - 1, 25))`. -/
def endColV4 (numHeaders : Nat) : Char := Char.ofNat (65 + min (numHeaders - 1) 25)

/-! ### Selector lemmas -/

theorem idDiff_total (p q : Option Int) : idDiff p q ≤ 0 ∨ idDiff q p ≤ 0 := by
  cases p <;> cases q <;> (simp only [idDiff]; omega)

theorem cmpV1_total (a b : Cand) : cmpV1 a b ≤ 0 ∨ cmpV1 b a ≤ 0 := by
  unfold cmpV1
  by_cases h1 : a.dt - b.dt ≠ 0
  · rw [if_pos h1, if_pos (show b.dt - a.dt ≠ 0 by omega)]
    omega
  · rw [if_neg h1, if_neg (show ¬b.dt - a.dt ≠ 0 by omega)]
    exact idDiff_total a.idNum b.idNum

theorem cmpV5_total (a b : Row × Int) : cmpV5 a b ≤ 0 ∨ cmpV5 b a ≤ 0 := by
  unfold cmpV5; omega

/-- Head of a comparator sort is related to every member, through any
reflexive relation that is transitive and implied on the sorted list by
the comparator. -/
theorem sortByCmp_head_rel {α : Type} (cmp : α → α → Int)
    (htot : ∀ a b : α, cmp a b ≤ 0 ∨ cmp b a ≤ 0)
    (S : α → α → Prop)
    (htrans : ∀ x y z : α, S x y → S y z → S x z)
    (hrefl : ∀ x : α, S x x)
    (l : List α)
    (hCS : ∀ x ∈ sortByCmp cmp l, ∀ y ∈ sortByCmp cmp l, cmp x y ≤ 0 → S x y)
    (h0 : α) (hh : (sortByCmp cmp l).head? = some h0) :
    ∀ x ∈ sortByCmp cmp l, S h0 x := by
  have hchain : (sortByCmp cmp l).Chain' (fun a b => cmp a b ≤ 0) :=
    chain_insertionSort _ htot l
  intro x hx
  rcases hsl : sortByCmp cmp l with _ | ⟨a, t⟩
  · rw [hsl] at hh; cases hh
  · rw [hsl] at hh hx hchain hCS
    have ha : a = h0 := by injection hh
    subst ha
    rcases List.mem_cons.mp hx with rfl | hxt
    · exact hrefl x
    · exact chain_rel_all t a hchain
        (fun u _ v _ w _ => htrans u v w)
        (fun u hu v hv => hCS u hu v hv)
        x hxt

/-- Every entry of the fifth-variant candidate list passed the pending
filter, has non-empty trimmed text, carries its own parsed instant, and
is due. -/
theorem mem_candidatesV5 {rows : List Row} {now : Int} {p : Row × Int}
    (hp : p ∈ candidatesV5 rows now) :
    lowerStr (jsTrim p.1.status) = "pending" ∧ jsTrim p.1.postText ≠ "" ∧
      parseUtcDueDateV5 p.1 = some p.2 ∧ p.2 ≤ now := by
  unfold candidatesV5 candidatesV5pre at hp
  have hp2 := (sortByCmp_perm _ _).mem_iff.mp hp
  rcases List.mem_filterMap.mp hp2 with ⟨r, hr, hf⟩
  have hrp := (List.mem_filter.mp hr).2
  cases hpar : parseUtcDueDateV5 r with
  | none => simp only [hpar] at hf; cases hf
  | some due =>
    simp only [hpar] at hf
    by_cases hc : jsTrim r.postText ≠ "" ∧ due ≤ now
    · rw [if_pos hc] at hf
      injection hf with hf
      subst hf
      exact ⟨by simpa using hrp, hc.1, hpar, hc.2⟩
    · rw [if_neg hc] at hf; cases hf

/-- Every entry of the first-variant candidate list passed the pending
filter, carries the parsed instant of its own row, is due, and carries
the Number() of its id cell. -/
theorem mem_candidatesV1 {rows : List Row} {now : Int} {c : Cand}
    (hc : c ∈ candidatesV1 rows now) :
    lowerStr (jsTrim c.row.status) = "pending" ∧
      parseUtcDateTimeV1 c.row.publishDate c.row.timeUtc = some c.dt ∧
      c.dt ≤ now ∧ c.idNum = jsNumber c.row.idCell := by
  unfold candidatesV1 at hc
  have hc2 := (sortByCmp_perm _ _).mem_iff.mp hc
  rcases List.mem_filterMap.mp hc2 with ⟨p, hp, hf⟩
  have hrp := (List.mem_filter.mp hp).2
  cases hpar : parseUtcDateTimeV1 p.2.publishDate p.2.timeUtc with
  | none => simp only [hpar] at hf; cases hf
  | some dt =>
    simp only [hpar] at hf
    by_cases hdue : dt ≤ now
    · rw [if_pos hdue] at hf
      injection hf with hf
      subst hf
      exact ⟨by simpa using hrp, hpar, hdue, rfl⟩
    · rw [if_neg hdue] at hf; cases hf

/-- The comparator of the first variant never reports an
earlier-instant row as later. -/
theorem cmpV1_le_dt {a b : Cand} (h : cmpV1 a b ≤ 0) : a.dt ≤ b.dt := by
  unfold cmpV1 at h
  by_cases h1 : a.dt - b.dt ≠ 0
  · rw [if_pos h1] at h; omega
  · omega

/-- The selected candidate of the first variant has the minimal parsed
instant of the whole candidate list. -/
theorem selectedV1_min_dt {rows : List Row} {now : Int} {c : Cand}
    (h : (candidatesV1 rows now).head? = some c) :
    ∀ x ∈ candidatesV1 rows now, c.dt ≤ x.dt := by
  unfold candidatesV1 at h ⊢
  exact sortByCmp_head_rel cmpV1 cmpV1_total (fun a b => a.dt ≤ b.dt)
    (fun x y z => le_trans) (fun x => le_refl _) _
    (fun x _ y _ hxy => cmpV1_le_dt hxy) c h

/-- The selected candidate of the fifth variant has the minimal parsed
instant of the whole candidate list. -/
theorem selectedV5_min_dt {rows : List Row} {now : Int} {p : Row × Int}
    (h : (candidatesV5 rows now).head? = some p) :
    ∀ x ∈ candidatesV5 rows now, p.2 ≤ x.2 := by
  unfold candidatesV5 at h ⊢
  exact sortByCmp_head_rel cmpV5 cmpV5_total (fun a b => a.2 ≤ b.2)
    (fun x y z => le_trans) (fun x => le_refl _) _
    (fun x _ y _ hxy => by unfold cmpV5 at hxy; omega) p h

/-- Tie-break at the selected instant: when every candidate sharing the
selected (minimal) instant carries a numeric id, the selected candidate
of the first variant has the minimal id among that equal-instant group.
The hypothesis says nothing about candidates at other instants. -/
theorem selectedV1_min_id_tie {rows : List Row} {now : Int} {c : Cand}
    (h : (candidatesV1 rows now).head? = some c)
    (hid : ∀ x ∈ candidatesV1 rows now, x.dt = c.dt → x.idNum.isSome) :
    ∀ x ∈ candidatesV1 rows now, x.dt = c.dt →
      c.idNum.getD 0 ≤ x.idNum.getD 0 := by
  have hmin := selectedV1_min_dt h
  have main :
      ∀ x ∈ candidatesV1 rows now,
        c.dt ≤ x.dt ∧
          (x.dt = c.dt → c.dt = c.dt ∧ c.idNum.getD 0 ≤ x.idNum.getD 0) := by
    unfold candidatesV1 at h hid hmin ⊢
    refine sortByCmp_head_rel cmpV1 cmpV1_total
      (fun u v => u.dt ≤ v.dt ∧
        (v.dt = c.dt → u.dt = c.dt ∧ u.idNum.getD 0 ≤ v.idNum.getD 0))
      ?_ ?_ _ ?_ c h
    · rintro x y z ⟨hd1, hc1⟩ ⟨hd2, hc2⟩
      refine ⟨le_trans hd1 hd2, fun hw => ?_⟩
      obtain ⟨hv, hiv⟩ := hc2 hw
      obtain ⟨hu, hiu⟩ := hc1 hv
      exact ⟨hu, le_trans hiu hiv⟩
    · exact fun x => ⟨le_refl _, fun hx => ⟨hx, le_refl _⟩⟩
    · intro x hx y hy hxy
      refine ⟨cmpV1_le_dt hxy, fun hyc => ?_⟩
      have hxc : x.dt = c.dt :=
        le_antisymm (hyc ▸ cmpV1_le_dt hxy) (hmin x hx)
      refine ⟨hxc, ?_⟩
      rcases Option.isSome_iff_exists.mp (hid x hx hxc) with ⟨xv, hxi⟩
      rcases Option.isSome_iff_exists.mp (hid y hy hyc) with ⟨yv, hyi⟩
      unfold cmpV1 at hxy
      rw [if_neg (show ¬x.dt - y.dt ≠ 0 by rw [hxc, hyc]; omega)] at hxy
      rw [hxi, hyi] at hxy
      simp only [idDiff] at hxy
      show x.idNum.getD 0 ≤ y.idNum.getD 0
      rw [hxi, hyi]
      simp only [Option.getD_some]
      omega
  exact fun x hx hdt => ((main x hx).2 hdt).2

/-- An equal-instant comparison involving a NaN id returns zero, so the
comparator leaves such a pair to the stable sort order. -/
theorem cmpV1_nan_tie (a b : Cand) (hdt : a.dt = b.dt)
    (h : a.idNum = none ∨ b.idNum = none) : cmpV1 a b = 0 := by
  unfold cmpV1
  rw [if_neg (show ¬a.dt - b.dt ≠ 0 by rw [hdt]; omega)]
  rcases h with h | h
  · rw [h]
    cases b.idNum <;> rfl
  · rw [h]
    cases a.idNum <;> rfl

/-- Filtering an equal-instant group commutes with the fifth-variant
ordered insertion: the inserted element lands before the whole group
when it belongs to it and outside of it otherwise. -/
theorem filter_orderedInsert_cmpV5 (d : Int) (x : Row × Int) :
    ∀ l : List (Row × Int),
      (List.orderedInsert (fun a b => cmpV5 a b ≤ 0) x l).filter
          (fun p => p.2 = d) =
        if x.2 = d then x :: l.filter (fun p => p.2 = d)
        else l.filter (fun p => p.2 = d) := by
  intro l
  induction l with
  | nil =>
    by_cases hx : x.2 = d
    · simp [List.orderedInsert, hx]
    · simp [List.orderedInsert, hx]
  | cons y t ih =>
    by_cases hR : cmpV5 x y ≤ 0
    · simp only [List.orderedInsert, if_pos hR]
      by_cases hx : x.2 = d
      · simp [hx]
      · simp [hx]
    · simp only [List.orderedInsert, if_neg hR]
      have hlt : y.2 < x.2 := by
        unfold cmpV5 at hR
        omega
      by_cases hx : x.2 = d
      · have hy : ¬y.2 = d := by omega
        simp [List.filter_cons, hy, ih, hx]
      · by_cases hy : y.2 = d
        · simp [List.filter_cons, hy, ih, hx]
        · simp [List.filter_cons, hy, ih, hx]

/-- Stability of the fifth-variant selector: restricted to the rows of
any one parsed instant, the sorted candidate list is exactly the
pre-sort (backend-order) candidate list, so equal-instant rows keep
their original backend order. -/
theorem candidatesV5_stable (rows : List Row) (now : Int) (d : Int) :
    (candidatesV5 rows now).filter (fun p => p.2 = d) =
      (candidatesV5pre rows now).filter (fun p => p.2 = d) := by
  unfold candidatesV5 sortByCmp
  generalize candidatesV5pre rows now = l
  induction l with
  | nil => rfl
  | cons x t ih =>
    show (List.orderedInsert _ x (t.insertionSort _)).filter _ = _
    rw [filter_orderedInsert_cmpV5 d x (t.insertionSort _), ih]
    by_cases hx : x.2 = d
    · simp [List.filter_cons, hx]
    · simp [List.filter_cons, hx]

/-! ### Dispatcher and parser lemmas -/

/-- Every entry of the third-variant due list has non-empty trimmed
text: the empty-text branch after selection is unreachable. -/
theorem mem_dueV3_text {rows : List Row} {now : Int} {p : Row × String}
    (hp : p ∈ dueV3 rows now) : jsTrim p.1.postText ≠ "" := by
  unfold dueV3 at hp
  have hp2 := (sortByCmp_perm _ _).mem_iff.mp hp
  rcases List.mem_filterMap.mp hp2 with ⟨q, _, hf⟩
  cases hiso : q.2 with
  | none => simp only [hiso] at hf; cases hf
  | some iso =>
    simp only [hiso] at hf
    by_cases hd : isDueV3 q.1 now
    · rw [if_pos hd] at hf
      injection hf with hf
      subst hf
      unfold isDueV3 at hd
      by_cases ht : jsTrim q.1.postText = ""
      · rw [if_pos ht] at hd; simp at hd
      · exact ht
    · rw [if_neg hd] at hf; cases hf

/-- A row picked by the fourth-variant loop passed the pending and
non-empty-text guards and parsed to a due instant. -/
theorem pickV4_picked {now : Int} :
    ∀ {l : List (Nat × Row)} {i : Nat} {r : Row},
      pickV4 now l = .ok (some (i, r)) →
      lowerStr (jsTrim r.status) = "pending" ∧ jsTrim r.postText ≠ "" ∧
        ∃ ms, parseUtcDateTimeV4 r.publishDate r.timeUtc = .ok ms ∧ ms ≤ now := by
  intro l
  induction l with
  | nil => intro i r h; simp [pickV4] at h
  | cons p rest ih =>
    intro i r h
    obtain ⟨j, row⟩ := p
    unfold pickV4 at h
    by_cases h1 : lowerStr (jsTrim row.status) ≠ "pending"
    · rw [if_pos h1] at h; exact ih h
    · rw [if_neg h1] at h
      by_cases h2 : jsTrim row.postText = ""
      · rw [if_pos h2] at h; exact ih h
      · rw [if_neg h2] at h
        cases hpar : parseUtcDateTimeV4 row.publishDate row.timeUtc with
        | error e => simp only [hpar] at h; cases h
        | ok ms =>
          simp only [hpar] at h
          by_cases hdue : ms ≤ now
          · rw [if_pos hdue] at h
            injection h with h
            injection h with h
            have hrr : row = r := congrArg Prod.snd h
            subst hrr
            exact ⟨not_not.mp h1, h2, ms, hpar, hdue⟩
          · rw [if_neg hdue] at h; exact ih h

/-- The first variant treats a five-character trimmed time as HH:MM and
parses it with appended seconds. -/
theorem parseV1_five (d t : String) (h : (jsTrim t).length = 5) :
    parseUtcDateTimeV1 d t =
      jsDateParseMs (d ++ "T" ++ jsTrim t ++ ":00" ++ "Z") := by
  unfold parseUtcDateTimeV1
  show jsDateParseMs
      (d ++ "T" ++ (if (jsTrim t).length = 5 then jsTrim t ++ ":00" else jsTrim t)
        ++ "Z") = _
  rw [if_pos h, String.append_assoc (d ++ "T") (jsTrim t) ":00"]

/-- A row whose date/time columns build no ISO text is not due for the
third variant. -/
theorem isDueV3_none_iso (r : Row) (now : Int)
    (h : toIsoUtcFromColumns r.publishDate r.timeUtc = none) :
    isDueV3 r now = false := by
  unfold isDueV3
  rw [h]
  by_cases h1 : jsTrim r.postText = "" <;> simp [h1]

/-- A row whose built ISO text is an invalid instant is not due for the
third variant. -/
theorem isDueV3_invalid_iso (r : Row) (now : Int) (iso : String)
    (h : toIsoUtcFromColumns r.publishDate r.timeUtc = some iso)
    (hbad : jsDateParseMs iso = none) :
    isDueV3 r now = false := by
  unfold isDueV3
  rw [h]
  by_cases h1 : jsTrim r.postText = "" <;> simp [h1, hbad]

/-! ### Store-update lemmas -/

theorem getD_set_ne (l : List String) (j : Nat) (v : String) (i : Nat)
    (h : j ≠ i) : (l.set j v).getD i "" = l.getD i "" := by
  simp [List.getD_eq_getElem?_getD, List.getElem?_set_ne h]

/-- An update key with no case-insensitive header match changes nothing
in the first-variant row write. -/
theorem updateCellsV1_missing (headers current : List String) (k v : String)
    (h : jsFindIndex (fun s => lowerStr s = lowerStr k) headers = none) :
    updateCellsV1 headers current [(k, v)] = updateCellsV1 headers current [] := by
  unfold updateCellsV1
  simp [h]

/-- Cells whose header index is targeted by no update key keep their
previous value under the first-variant row write. -/
theorem updateCellsV1_frame (headers current : List String)
    (updates : List (String × String)) (i : Nat) (hi : i < headers.length)
    (hno : ∀ kv ∈ updates,
      jsFindIndex (fun s => lowerStr s = lowerStr kv.1) headers ≠ some i) :
    (updateCellsV1 headers current updates).getD i "" = current.getD i "" := by
  unfold updateCellsV1
  have hbase :
      ((List.range headers.length).map (fun j => current.getD j "")).getD i "" =
        current.getD i "" := by
    simp [List.getD_eq_getElem?_getD, List.getElem?_map, List.getElem?_range hi]
  rw [← hbase]
  generalize (List.range headers.length).map (fun j => current.getD j "") = cells
  induction updates generalizing cells with
  | nil => rfl
  | cons kv rest ih =>
    have hkv := hno kv (by simp)
    cases hidx : jsFindIndex (fun s => lowerStr s = lowerStr kv.1) headers with
    | none =>
      simp only [List.foldl_cons, hidx]
      exact ih (fun kv hkv => hno kv (by simp [hkv])) cells
    | some idx =>
      have hne : idx ≠ i := fun he => hkv (by rw [hidx, he])
      simp only [List.foldl_cons, hidx]
      rw [ih (fun kv hkv => hno kv (by simp [hkv])) (cells.set idx kv.2),
        getD_set_ne cells idx kv.2 i hne]

/-- Every write range the fifth-variant update emits comes from an update
entry whose key matches a header exactly, at that header position. -/
theorem updateDataV5_entries (headers : List String) (rowIndex : Nat)
    (updates : List (String × String)) :
    ∀ e ∈ updateDataV5 headers rowIndex updates, ∃ kv ∈ updates, ∃ idx,
      jsFindIndex (fun h => h = kv.1) headers = some idx ∧
        e = (colLetter idx, rowIndex, kv.2) := by
  intro e he
  unfold updateDataV5 at he
  rcases List.mem_filterMap.mp he with ⟨kv, hkv, hf⟩
  cases hidx : jsFindIndex (fun h => h = kv.1) headers with
  | none => simp only [hidx] at hf; cases hf
  | some idx =>
    simp only [hidx] at hf
    injection hf with hf
    exact ⟨kv, hkv, idx, hidx, hf.symm⟩

/-- A single update with no case-insensitive header match makes the
fourth-variant update throw. -/
theorem updateRowV4_missing (headers row : List String) (k v : String)
    (h : jsFindIndex (fun s => lowerStr s = lowerStr k) headers = none) :
    updateRowV4 headers row [(k, v)] =
      .error ("Missing required column in sheet header: " ++ k) := by
  unfold updateRowV4 headerIndexV4
  simp [h]

/-- Reading past the 26-column fetch window yields nothing. -/
theorem fetchWindow_beyond (raw : List String) (i : Nat) (h : 26 ≤ i) :
    (fetchWindow raw).getD i "" = "" := by
  have hl : (fetchWindow raw).length ≤ i :=
    le_trans (List.length_take_le 26 raw) h
  rw [List.getD_eq_getElem?_getD, List.getElem?_eq_none hl]
  rfl

/-! ### URL lemmas -/

theorem takeWhile_all_true {α : Type} (p : α → Bool) :
    ∀ l : List α, (∀ c ∈ l, p c) → l.takeWhile p = l := by
  intro l
  induction l with
  | nil => intro _; rfl
  | cons c cs ih =>
    intro h
    simp [List.takeWhile, h c (by simp), ih (fun x hx => h x (by simp [hx]))]

theorem dropWhile_all_true {α : Type} (p : α → Bool) :
    ∀ l : List α, (∀ c ∈ l, p c) → l.dropWhile p = [] := by
  intro l
  induction l with
  | nil => intro _; rfl
  | cons c cs ih =>
    intro h
    simp [List.dropWhile, h c (by simp), ih (fun x hx => h x (by simp [hx]))]

/-- A URL with no question mark or hash is its own base URL. -/
theorem urlBase_no_query (url : String)
    (h : ∀ c ∈ url.data, c ≠ '?' ∧ c ≠ '#') : urlBase url = url := by
  unfold urlBase
  rw [takeWhile_all_true _ url.data
    (fun c hc => by simp [(h c hc).1, (h c hc).2])]

/-- A URL with no question mark or hash has no query parameters. -/
theorem urlQueryParams_no_query (url : String)
    (h : ∀ c ∈ url.data, c ≠ '?' ∧ c ≠ '#') : urlQueryParams url = [] := by
  unfold urlQueryParams urlSearch
  rw [takeWhile_all_true _ url.data (fun c hc => by simp [(h c hc).2]),
    dropWhile_all_true _ url.data (fun c hc => by simp [(h c hc).1])]
  rfl

/-! ### Claim theorems -/

/-- C1: in every run of each modelled flow at most one row is
dispatched: the selected candidate is unique and the list of posting
calls a run makes never holds more than one entry, after which the run
terminates. -/
theorem C1_at_most_one_dispatch :
    (∀ (rows : List Row) (now : Int) (api : ApiResult) (nowIso : String),
        (runV1 rows now api nowIso).posts.length ≤ 1) ∧
    (∀ (rows : List Row) (now : Int) (resp : HttpResp) (nowIso : String)
        (hasTid hasPat : Bool),
        (runV4 rows now resp nowIso hasTid hasPat).posts.length ≤ 1) ∧
    (∀ (rows : List Row) (now : Int) (resp : HttpResp) (nowIso : String),
        (runV5 rows now resp nowIso).posts.length ≤ 1) := by
  refine ⟨?_, ?_, ?_⟩
  · intro rows now api nowIso
    unfold runV1
    cases (candidatesV1 rows now).head? with
    | none => simp
    | some item =>
      by_cases h : jsTrim item.row.postText = ""
      · simp [h]
      · cases api <;> simp [h]
  · intro rows now resp nowIso hasTid hasPat
    unfold runV4
    cases pickV4 now rows.enum with
    | error e => simp
    | ok o =>
      cases o with
      | none => simp
      | some pr =>
        obtain ⟨i, r⟩ := pr
        cases postToXV4 resp <;> simp
  · intro rows now resp nowIso
    unfold runV5
    cases (candidatesV5 rows now).head? with
    | none => simp
    | some chosen => cases postToXV5 resp <;> simp

/-- Concrete rows used by the closed witnesses and counterexamples:
all pending, due before 2026-01-31T11:00Z. -/
def rowEarly : Row := ⟨"Pending", "2026-01-31", "10:00", "early post", "7", 3⟩

/-- Concrete row scheduled later than rowEarly but stored first. -/
def rowLate : Row := ⟨"Pending", "2026-01-31", "10:30", "late post", "4", 2⟩

/-- Concrete equal-instant row with id 5, stored first. -/
def rowTieA : Row := ⟨"Pending", "2026-01-31", "10:00", "tie a", "5", 2⟩

/-- Concrete equal-instant row with id 3, stored second. -/
def rowTieB : Row := ⟨"Pending", "2026-01-31", "10:00", "tie b", "3", 3⟩

/-- Concrete run instant 2026-01-31T11:00:00Z. -/
def nowWit : Int := 1769857200000

/-- C2 as stated fails on the selector at lines 1098-1108: two due rows
share one parsed instant and carry the numeric ids 5 and 3, yet the
sheet-order first row (id 5) is selected, not the id-3 row that the
claimed ascending-id tie-break would pick. -/
theorem C2_counterexample :
    ((candidatesV5 [rowTieA, rowTieB] nowWit).head?).map (fun p => p.1) =
      some rowTieA ∧
    rowTieA ≠ rowTieB ∧
    jsNumber rowTieA.idCell = some 5 ∧ jsNumber rowTieB.idCell = some 3 ∧
    parseUtcDueDateV5 rowTieA = some 1769853600000 ∧
    parseUtcDueDateV5 rowTieB = some 1769853600000 :=
  ⟨rfl, by decide, rfl, rfl, rfl, rfl⟩

/-- C2 (amended): both selectors order the due candidates ascending by
parsed instant and select the first, so the selected row never has a
later instant than any candidate. The selector of lines 84-93 breaks
ties at the selected instant by ascending numeric id whenever every
candidate at that instant carries one; a candidate with a NaN id makes
the comparator return zero against any equal-instant candidate, leaving
that pair to the stable sort order. The selector of lines 1098-1108
applies no id tie-break at all: restricted to any one parsed instant,
its sorted candidate list is exactly the backend-order candidate list,
so equal-instant rows keep their original backend order. -/
theorem C2_selector_amended :
    (∀ (rows : List Row) (now : Int) (c : Cand),
        (candidatesV1 rows now).head? = some c →
        ∀ x ∈ candidatesV1 rows now, c.dt ≤ x.dt) ∧
    (∀ (rows : List Row) (now : Int) (p : Row × Int),
        (candidatesV5 rows now).head? = some p →
        ∀ x ∈ candidatesV5 rows now, p.2 ≤ x.2) ∧
    (∀ (rows : List Row) (now : Int) (c : Cand),
        (candidatesV1 rows now).head? = some c →
        (∀ x ∈ candidatesV1 rows now, x.dt = c.dt → x.idNum.isSome) →
        ∀ x ∈ candidatesV1 rows now, x.dt = c.dt →
          c.idNum.getD 0 ≤ x.idNum.getD 0) ∧
    (∀ a b : Cand, a.dt = b.dt → a.idNum = none ∨ b.idNum = none →
        cmpV1 a b = 0) ∧
    (∀ (rows : List Row) (now : Int) (d : Int),
        (candidatesV5 rows now).filter (fun p => p.2 = d) =
          (candidatesV5pre rows now).filter (fun p => p.2 = d)) :=
  ⟨fun _ _ _ h => selectedV1_min_dt h,
   fun _ _ _ h => selectedV5_min_dt h,
   fun _ _ _ h hid => selectedV1_min_id_tie h hid,
   cmpV1_nan_tie,
   candidatesV5_stable⟩

/-- Closed instantiation of C2_selector_amended: an earlier row selected
out of a mixed-instant store, a minimal-id tie-break inside a tie group
of a mixed-instant store, a NaN-id comparison, and stability of the
fifth-variant sort on an equal-instant store. -/
theorem C2_selector_amended_witness :
    (∀ x ∈ candidatesV1 [rowLate, rowEarly] nowWit,
        (⟨rowEarly, 1, 3, 1769853600000, some 7⟩ : Cand).dt ≤ x.dt) ∧
    (∀ x ∈ candidatesV5 [rowTieA, rowTieB] nowWit,
        ((rowTieA, (1769853600000 : Int)) : Row × Int).2 ≤ x.2) ∧
    (∀ x ∈ candidatesV1 [rowLate, rowTieA, rowTieB] nowWit,
        x.dt = (⟨rowTieB, 2, 4, 1769853600000, some 3⟩ : Cand).dt →
        (⟨rowTieB, 2, 4, 1769853600000, some 3⟩ : Cand).idNum.getD 0 ≤
          x.idNum.getD 0) ∧
    cmpV1 ⟨rowTieA, 0, 2, 1769853600000, none⟩
      ⟨rowTieB, 1, 3, 1769853600000, some 3⟩ = 0 ∧
    (candidatesV5 [rowTieA, rowTieB] nowWit).filter
        (fun p => p.2 = 1769853600000) =
      (candidatesV5pre [rowTieA, rowTieB] nowWit).filter
        (fun p => p.2 = 1769853600000) :=
  ⟨C2_selector_amended.1 [rowLate, rowEarly] nowWit _ rfl,
   C2_selector_amended.2.1 [rowTieA, rowTieB] nowWit _ rfl,
   C2_selector_amended.2.2.1 [rowLate, rowTieA, rowTieB] nowWit _ rfl
     (by decide),
   C2_selector_amended.2.2.2.1 _ _ rfl (Or.inl rfl),
   C2_selector_amended.2.2.2.2 [rowTieA, rowTieB] nowWit 1769853600000⟩

/-- Concrete 401 response. -/
def resp401 : HttpResp := ⟨401, some "Unauthorized", none, none, "{}"⟩

/-- Concrete 201 response missing the created-post id. -/
def resp201NoId : HttpResp := ⟨201, none, none, none, "{}"⟩

/-- C3: for a selected row, a non-2xx response makes postToX throw the
rejection error carrying the status code and the provider message, the
run surfaces that error and writes no store update, and the selected
row passed the pending filter, so it stays pending for a later retry. -/
theorem C3_post_rejected (rows : List Row) (now : Int) (resp : HttpResp)
    (nowIso bodyText : String) (chosen : Row × Int)
    (hsel : (candidatesV5 rows now).head? = some chosen)
    (hbad : ¬(200 ≤ resp.status ∧ resp.status ≤ 299)) :
    postToXV5 resp =
      .error (.rejected resp.status
        (jsOrS resp.detail (jsOrS resp.title resp.rawJson))) ∧
    postToXV3 resp.status bodyText = .error (.rejected resp.status bodyText) ∧
    (runV5 rows now resp nowIso).updates = [] ∧
    (runV5 rows now resp nowIso).error =
      some (postErrMsg (.rejected resp.status
        (jsOrS resp.detail (jsOrS resp.title resp.rawJson)))) ∧
    lowerStr (jsTrim chosen.1.status) = "pending" := by
  have hpost : postToXV5 resp =
      .error (.rejected resp.status
        (jsOrS resp.detail (jsOrS resp.title resp.rawJson))) := by
    unfold postToXV5
    rw [if_neg hbad]
  refine ⟨hpost, ?_, ?_, ?_,
    (mem_candidatesV5 (List.mem_of_mem_head? hsel)).1⟩
  · unfold postToXV3
    rw [if_neg hbad]
  · unfold runV5
    simp only [hsel, hpost]
  · unfold runV5
    simp only [hsel, hpost]

/-- Closed instantiation of C3_post_rejected: one pending due row and a
401 response. -/
theorem C3_post_rejected_witness :
    postToXV5 resp401 =
      .error (.rejected resp401.status
        (jsOrS resp401.detail (jsOrS resp401.title resp401.rawJson))) ∧
    postToXV3 resp401.status "denied" =
      .error (.rejected resp401.status "denied") ∧
    (runV5 [rowEarly] nowWit resp401 "iso").updates = [] ∧
    (runV5 [rowEarly] nowWit resp401 "iso").error =
      some (postErrMsg (.rejected resp401.status
        (jsOrS resp401.detail (jsOrS resp401.title resp401.rawJson)))) ∧
    lowerStr (jsTrim (rowEarly, (1769853600000 : Int)).1.status) = "pending" :=
  C3_post_rejected [rowEarly] nowWit resp401 "iso" "denied"
    (rowEarly, 1769853600000) rfl (by decide)

/-- C4 as stated fails on the first variant (lines 122-132): with a
successful library response carrying no created-post id, the run still
records the row Status=Posted (with an empty Tweet ID cell) and
surfaces no error. -/
theorem C4_counterexample :
    runV1 [rowEarly] nowWit (.ok none) "iso" =
      ⟨["early post"],
        [(2, [("Status", "Posted"), ("Posted At", "iso"), ("Tweet ID", "")])],
        none⟩ := by
  rfl

/-- C4 (amended): the fetch-based dispatchers of lines 787-788 and
1077-1079 treat a 2xx response without a created-post id as a thrown
missing-id failure, and their runs then write no store update; the flow
of lines 122-132 instead records the row as posted with an empty id. -/
theorem C4_no_id_amended (resp : HttpResp)
    (h2xx : 200 ≤ resp.status ∧ resp.status ≤ 299)
    (hnoid : resp.dataId = none) :
    postToXV5 resp = .error .noId ∧ postToXV4 resp = .error .noId ∧
    (∀ (rows : List Row) (now : Int) (nowIso : String),
        (runV5 rows now resp nowIso).updates = []) ∧
    (∀ (rows : List Row) (now : Int) (nowIso : String) (hasTid hasPat : Bool),
        (runV4 rows now resp nowIso hasTid hasPat).updates = []) := by
  have h5 : postToXV5 resp = .error .noId := by
    unfold postToXV5
    rw [if_pos h2xx, hnoid]
  have h4 : postToXV4 resp = .error .noId := by
    unfold postToXV4
    rw [if_pos h2xx, hnoid]
  refine ⟨h5, h4, ?_, ?_⟩
  · intro rows now nowIso
    unfold runV5
    cases (candidatesV5 rows now).head? with
    | none => rfl
    | some chosen => simp only [h5]
  · intro rows now nowIso hasTid hasPat
    unfold runV4
    cases pickV4 now rows.enum with
    | error e => rfl
    | ok o =>
      cases o with
      | none => rfl
      | some pr =>
        obtain ⟨i, r⟩ := pr
        simp only [h4]

/-- Closed instantiation of C4_no_id_amended on a 201 response without
an id. -/
theorem C4_no_id_amended_witness :
    postToXV5 resp201NoId = .error .noId ∧
    postToXV4 resp201NoId = .error .noId ∧
    (∀ (rows : List Row) (now : Int) (nowIso : String),
        (runV5 rows now resp201NoId nowIso).updates = []) ∧
    (∀ (rows : List Row) (now : Int) (nowIso : String) (hasTid hasPat : Bool),
        (runV4 rows now resp201NoId nowIso hasTid hasPat).updates = []) :=
  C4_no_id_amended resp201NoId (by decide) rfl

/-- Concrete pending due row whose text trims to empty. -/
def rowBlank : Row := ⟨"Pending", "2026-01-31", "10:00", "  ", "1", 2⟩

/-- C5: a selected row whose text is empty after trimming is marked
Skipped with the current timestamp and no posting call is made (first
variant); in every other variant the selectors never hand an empty-text
row to the dispatcher at all, so the claim holds there vacuously. -/
theorem C5_empty_text_skip (rows : List Row) (now : Int) (api : ApiResult)
    (nowIso : String) (item : Cand)
    (hsel : (candidatesV1 rows now).head? = some item)
    (hempty : jsTrim item.row.postText = "") :
    runV1 rows now api nowIso =
      ⟨[], [(item.sheetRow, [("Status", "Skipped"), ("Posted At", nowIso)])],
        none⟩ ∧
    (∀ p ∈ dueV3 rows now, jsTrim p.1.postText ≠ "") ∧
    (∀ p ∈ candidatesV5 rows now, jsTrim p.1.postText ≠ "") ∧
    (∀ (l : List (Nat × Row)) (i : Nat) (r : Row),
        pickV4 now l = .ok (some (i, r)) → jsTrim r.postText ≠ "") := by
  refine ⟨?_, fun p hp => mem_dueV3_text hp,
    fun p hp => (mem_candidatesV5 hp).2.1,
    fun l i r h => (pickV4_picked h).2.1⟩
  unfold runV1
  simp only [hsel]
  rw [if_pos hempty]

/-- Closed instantiation of C5_empty_text_skip on a store whose single
pending due row has whitespace-only text. -/
theorem C5_empty_text_skip_witness :
    runV1 [rowBlank] nowWit (.ok (some "9")) "iso" =
      ⟨[], [((⟨rowBlank, 0, 2, 1769853600000, some 1⟩ : Cand).sheetRow,
        [("Status", "Skipped"), ("Posted At", "iso")])], none⟩ ∧
    (∀ p ∈ dueV3 [rowBlank] nowWit, jsTrim p.1.postText ≠ "") ∧
    (∀ p ∈ candidatesV5 [rowBlank] nowWit, jsTrim p.1.postText ≠ "") ∧
    (∀ (l : List (Nat × Row)) (i : Nat) (r : Row),
        pickV4 nowWit l = .ok (some (i, r)) → jsTrim r.postText ≠ "") :=
  C5_empty_text_skip [rowBlank] nowWit (.ok (some "9")) "iso"
    ⟨rowBlank, 0, 2, 1769853600000, some 1⟩ rfl (by decide)

/-- Concrete row with an empty time cell. -/
def rowNoTime : Row := ⟨"Pending", "2026-01-31", "", "text", "1", 2⟩

/-- Concrete row whose time builds an out-of-range instant. -/
def rowBadTime : Row := ⟨"Pending", "2026-01-31", "25:99", "text", "1", 2⟩

/-- C6 as stated fails on parseUtcDateTime of lines 666-677: a
well-formed HH:MM:SS time makes it build the invalid text
2026-01-31T10:00:00:00Z and throw, failing the run, although the same
combination is a perfectly valid instant. -/
theorem C6_counterexample :
    parseUtcDateTimeV4 "2026-01-31" "10:00:00" =
      .error ("Invalid date/time from sheet: Publish Date=\"2026-01-31\"" ++
        ", Time (UTC)=\"10:00:00\" -> \"2026-01-31T10:00:00:00Z\"") ∧
    jsDateParseMs "2026-01-31T10:00:00Z" = some 1769853600000 :=
  ⟨rfl, rfl⟩

/-- C6 (amended): the parser of lines 21-30 accepts both HH:MM and
HH:MM:SS, treating a bare HH:MM as HH:MM:00, and its selector keeps only
rows it could parse, excluding the rest without error; the builder of
lines 373-391 likewise accepts both forms and unparsable combinations
merely make the row not due; the parser of lines 666-677, however,
accepts only HH:MM and throws on an invalid combination, failing the
run. -/
theorem C6_time_forms_amended :
    (∀ d t : String, (jsTrim t).length = 5 →
        parseUtcDateTimeV1 d t =
          jsDateParseMs (d ++ "T" ++ jsTrim t ++ ":00" ++ "Z")) ∧
    (parseUtcDateTimeV1 "2026-01-31" "10:00" = some 1769853600000 ∧
     parseUtcDateTimeV1 "2026-01-31" "10:00:05" = some 1769853605000) ∧
    (toIsoUtcFromColumns "2026-01-31" "10:00" = some "2026-01-31T10:00:00Z" ∧
     toIsoUtcFromColumns "2026-01-31" "10:00:05" = some "2026-01-31T10:00:05Z") ∧
    (∀ (rows : List Row) (now : Int), ∀ c ∈ candidatesV1 rows now,
        parseUtcDateTimeV1 c.row.publishDate c.row.timeUtc = some c.dt) ∧
    (∀ (r : Row) (now : Int),
        toIsoUtcFromColumns r.publishDate r.timeUtc = none →
        isDueV3 r now = false) ∧
    (∀ (r : Row) (now : Int) (iso : String),
        toIsoUtcFromColumns r.publishDate r.timeUtc = some iso →
        jsDateParseMs iso = none → isDueV3 r now = false) :=
  ⟨parseV1_five, ⟨rfl, rfl⟩, ⟨rfl, rfl⟩,
   fun _ _ _ hc => (mem_candidatesV1 hc).2.1,
   isDueV3_none_iso, isDueV3_invalid_iso⟩

/-- Closed instantiation of C6_time_forms_amended. -/
theorem C6_time_forms_amended_witness :
    (parseUtcDateTimeV1 "2026-01-31" "10:00" =
      jsDateParseMs ("2026-01-31" ++ "T" ++ jsTrim "10:00" ++ ":00" ++ "Z")) ∧
    (∀ c ∈ candidatesV1 [rowEarly] nowWit,
        parseUtcDateTimeV1 c.row.publishDate c.row.timeUtc = some c.dt) ∧
    isDueV3 rowNoTime nowWit = false ∧
    isDueV3 rowBadTime nowWit = false :=
  ⟨C6_time_forms_amended.1 "2026-01-31" "10:00" (by decide),
   C6_time_forms_amended.2.2.2.1 [rowEarly] nowWit,
   C6_time_forms_amended.2.2.2.2.1 rowNoTime nowWit rfl,
   C6_time_forms_amended.2.2.2.2.2 rowBadTime nowWit "2026-01-31T25:99:00Z"
     rfl rfl⟩

/-- C7 as stated fails on oauth1Header of lines 931-938: for a URL with
a query string, its base string percent-encodes the whole URL (query
included) and omits the query parameters from the parameter set, so it
differs from the claimed construction. -/
theorem C7_counterexample :
    sigBaseStringV5 "POST" "https://api.x.com/2/tweets?a=b"
        [("oauth_nonce", "n")] ≠
      specSigBaseString "POST" "https://api.x.com/2/tweets?a=b"
        [("oauth_nonce", "n")] := by
  decide

/-- C7 (amended): the base string of buildOAuth1Header (lines 439-457)
equals the specified construction for every method, URL and signing
parameter set (the JSON body never appears in it); the base string of
oauth1Header (lines 931-938) equals it exactly for URLs without query
or fragment, which covers the fixed endpoint the script signs. -/
theorem C7_base_string_amended :
    (∀ (method url : String) (params : List (String × String)),
        sigBaseStringV3 method url params =
          specSigBaseString method url params) ∧
    (∀ (method url : String) (params : List (String × String)),
        (∀ c ∈ url.data, c ≠ '?' ∧ c ≠ '#') →
        sigBaseStringV5 method url params =
          specSigBaseString method url params) := by
  constructor
  · intro method url params
    unfold sigBaseStringV3 specSigBaseString
    rw [intercalate_amp_three]
  · intro method url params h
    unfold sigBaseStringV5 specSigBaseString
    rw [intercalate_amp_three, urlBase_no_query url h,
      urlQueryParams_no_query url h]
    rfl

/-- Closed instantiation of C7_base_string_amended. -/
theorem C7_base_string_amended_witness :
    sigBaseStringV3 "post" "https://api.x.com/2/tweets?a=b" [("k", "v")] =
      specSigBaseString "post" "https://api.x.com/2/tweets?a=b" [("k", "v")] ∧
    sigBaseStringV5 "POST" "https://api.twitter.com/2/tweets" [("k", "v")] =
      specSigBaseString "POST" "https://api.twitter.com/2/tweets" [("k", "v")] :=
  ⟨C7_base_string_amended.1 "post" "https://api.x.com/2/tweets?a=b" [("k", "v")],
   C7_base_string_amended.2 "POST" "https://api.twitter.com/2/tweets"
     [("k", "v")] (by decide)⟩

/-- C8: the percentEncode of the scripts (encodeURIComponent followed by
the regex pass over the five extra characters) keeps exactly the RFC
3986 unreserved characters and replaces every other character, the five
extras included, by the uppercase percent escapes of its bytes. -/
theorem C8_percent_encoding :
    (∀ s : String, percentEncode s = rfc3986Encode s) ∧
    percentEncode "!" = "%21" ∧
    percentEncode (String.mk [Char.ofNat 39]) = "%27" ∧
    percentEncode "(" = "%28" ∧
    percentEncode ")" = "%29" ∧
    percentEncode "*" = "%2A" ∧
    percentEncode "Az9-_.~" = "Az9-_.~" :=
  ⟨percentEncode_eq_rfc3986, by decide, by decide, by decide, by decide,
   by decide, by decide⟩

/-- C9 as stated fails on updateRowByHeader of lines 1016-1039: its
lookup is the case-sensitive indexOf, so an update key differing from
the stored header only in case writes nothing, although a
case-insensitive match exists and the updateRow of lines 136-161 does
write it. -/
theorem C9_counterexample :
    updateDataV5 ["STATUS"] 2 [("Status", "Posted")] = [] ∧
    lowerStr "STATUS" = lowerStr "Status" ∧
    updateCellsV1 ["STATUS"] ["Pending"] [("Status", "Posted")] = ["Posted"] :=
  ⟨rfl, rfl, rfl⟩

/-- C9 (amended): the updateRow of lines 136-161 matches header names
case-insensitively, silently ignores keys without a matching column and
leaves every untargeted cell at its previous value; the updateRowByHeader
of lines 1016-1039 writes only columns whose name matches exactly
(case-sensitively), silently skipping the rest and touching no other
cell; the updateRow of lines 717-746 matches case-insensitively but
throws on a key with no matching column instead of ignoring it. -/
theorem C9_update_fields_amended :
    (∀ (headers current : List String) (k v : String),
        jsFindIndex (fun s => lowerStr s = lowerStr k) headers = none →
        updateCellsV1 headers current [(k, v)] =
          updateCellsV1 headers current []) ∧
    (∀ (headers current : List String) (updates : List (String × String))
        (i : Nat), i < headers.length →
        (∀ kv ∈ updates,
          jsFindIndex (fun s => lowerStr s = lowerStr kv.1) headers ≠ some i) →
        (updateCellsV1 headers current updates).getD i "" =
          current.getD i "") ∧
    (∀ (headers : List String) (rowIndex : Nat)
        (updates : List (String × String)),
        ∀ e ∈ updateDataV5 headers rowIndex updates, ∃ kv ∈ updates, ∃ idx,
          jsFindIndex (fun h => h = kv.1) headers = some idx ∧
            e = (colLetter idx, rowIndex, kv.2)) ∧
    (∀ (headers row : List String) (k v : String),
        jsFindIndex (fun s => lowerStr s = lowerStr k) headers = none →
        updateRowV4 headers row [(k, v)] =
          .error ("Missing required column in sheet header: " ++ k)) :=
  ⟨updateCellsV1_missing, updateCellsV1_frame, updateDataV5_entries,
   updateRowV4_missing⟩

/-- Closed instantiation of C9_update_fields_amended. -/
theorem C9_update_fields_amended_witness :
    updateCellsV1 ["Status"] ["Pending"] [("Zz", "x")] =
      updateCellsV1 ["Status"] ["Pending"] [] ∧
    (updateCellsV1 ["Status", "Note"] ["Pending", "keep"]
        [("status", "Posted")]).getD 1 "" = ["Pending", "keep"].getD 1 "" ∧
    (∃ kv ∈ [("Status", "Posted")], ∃ idx,
        jsFindIndex (fun h => h = kv.1) ["Status"] = some idx ∧
        ((colLetter 0, 2, "Posted") : Char × Nat × String) =
          (colLetter idx, 2, kv.2)) ∧
    updateRowV4 ["Status"] ["Pending"] [("Zz", "x")] =
      .error ("Missing required column in sheet header: " ++ "Zz") :=
  ⟨C9_update_fields_amended.1 ["Status"] ["Pending"] "Zz" "x" rfl,
   C9_update_fields_amended.2.1 ["Status", "Note"] ["Pending", "keep"]
     [("status", "Posted")] 1 (by decide) (by decide),
   C9_update_fields_amended.2.2.1 ["Status"] 2 [("Status", "Posted")]
     (colLetter 0, 2, "Posted") (by decide),
   C9_update_fields_amended.2.2.2 ["Status"] ["Pending"] "Zz" "x" rfl⟩

/-- C10: every fetch returns at most the first 26 columns and nothing
beyond them, every write range of the per-field update uses a column
letter computed as the letter-offset of a header index below 26, the
letters 0 and 25 being A and Z, and the whole-row variant clamps its end
column to a letter between A and Z. -/
theorem C10_column_window :
    (∀ raw : List String, (fetchWindow raw).length ≤ 26) ∧
    (∀ (raw : List String) (i : Nat), 26 ≤ i →
        (fetchWindow raw).getD i "" = "") ∧
    (∀ (headers : List String) (rowIndex : Nat)
        (updates : List (String × String)), headers.length ≤ 26 →
        ∀ e ∈ updateDataV5 headers rowIndex updates,
          ∃ idx, idx < 26 ∧ e.1 = colLetter idx) ∧
    colLetter 0 = 'A' ∧ colLetter 25 = 'Z' ∧
    (∀ n : Nat, ∃ m : Nat, 65 ≤ m ∧ m ≤ 90 ∧ endColV4 n = Char.ofNat m) := by
  refine ⟨?_, ?_, ?_, rfl, rfl, ?_⟩
  · intro raw
    exact List.length_take_le 26 raw
  · intro raw i h
    exact fetchWindow_beyond raw i h
  · intro headers rowIndex updates hh e he
    rcases updateDataV5_entries headers rowIndex updates e he with
      ⟨kv, _, idx, hidx, he2⟩
    exact ⟨idx, lt_of_lt_of_le (jsFindIndex_lt_length hidx) hh, by rw [he2]⟩
  · intro n
    exact ⟨65 + min (n - 1) 25, by omega, by omega, rfl⟩

/-- Closed instantiation of C10_column_window. -/
theorem C10_column_window_witness :
    (fetchWindow (List.replicate 30 "x")).length ≤ 26 ∧
    (fetchWindow (List.replicate 30 "x")).getD 27 "" = "" ∧
    (∃ idx, idx < 26 ∧
        ((colLetter 0, 2, "v") : Char × Nat × String).1 = colLetter idx) ∧
    (∃ m : Nat, 65 ≤ m ∧ m ≤ 90 ∧ endColV4 30 = Char.ofNat m) :=
  ⟨C10_column_window.1 (List.replicate 30 "x"),
   C10_column_window.2.1 (List.replicate 30 "x") 27 (by decide),
   C10_column_window.2.2.1 ["Status"] 2 [("Status", "v")] (by decide)
     (colLetter 0, 2, "v") (by decide),
   C10_column_window.2.2.2.2.2 30⟩
